import Mathlib

set_option maxRecDepth 100000

/-!
Verification of the embedded crash-logger web server
(`src/drivers/csv_interface.py`, `src/webserver/webserver.py`).

The Python code is shallowly embedded: every function below mirrors the
control flow of the corresponding Python function line by line.  Strings
stand for byte strings (all data handled by the server is ASCII, and
`str.encode('utf-8')` is the identity on such data, so text and its UTF-8
encoding coincide).  MicroPython's millisecond tick clock is modelled as an
unbounded integer clock (`utime.ticks_diff now t` becomes `now - t`).
-/

/-! ### Python string primitives

Structural re-implementations of the Python `str` operations used by the
sources: `s.split(c)` for a one-character separator, `s.strip()`,
`s.startswith(p)` and substring containment (`p in s`). -/

/-- Characters stripped by Python's `str.strip()`. -/
def pyIsSpace (c : Char) : Bool :=
  c = ' ' || c = '\t' || c = '\n' || c = '\r' || c = '\x0b' || c = '\x0c'

/-- Worker for `splitChar`: `acc` holds the current field, reversed. -/
def splitCharAux (sep : Char) : List Char → List Char → List String
  | [], acc => [String.mk acc.reverse]
  | c :: cs, acc =>
    if c = sep then String.mk acc.reverse :: splitCharAux sep cs []
    else splitCharAux sep cs (c :: acc)

/-- Python `s.split(sep)` for a one-character separator: keeps empty fields,
and `"".split(sep) = [""]`. -/
def splitChar (sep : Char) (s : String) : List String :=
  splitCharAux sep s.data []

/-- Python `s.strip()`: drop whitespace from both ends. -/
def pyStrip (s : String) : String :=
  String.mk (((s.data.dropWhile pyIsSpace).reverse.dropWhile pyIsSpace).reverse)

/-- Does the first list occur at the head of the second? -/
def prefixCheck : List Char → List Char → Bool
  | [], _ => true
  | _ :: _, [] => false
  | a :: as, b :: bs => a = b && prefixCheck as bs

/-- Does `pat` occur (contiguously) anywhere in the list? -/
def occursIn (pat : List Char) : List Char → Bool
  | [] => prefixCheck pat []
  | c :: rest => prefixCheck pat (c :: rest) || occursIn pat rest

/-- Python `pat in s` (substring containment). -/
def containsS (s pat : String) : Bool :=
  occursIn pat.data s.data

/-- Python `s.startswith(p)`. -/
def pyStartsWith (s p : String) : Bool :=
  prefixCheck p.data s.data

/-- Remove every whitespace character; used to compare HTML fragments up to
insignificant whitespace. -/
def stripWs (s : String) : String :=
  String.mk (s.data.filter (fun c => !(pyIsSpace c)))

/-! ### `src/drivers/csv_interface.py` -/

/-- One line of the CSV log, as written by `CSV_Interface.write_row`:
`','.join(str(item) for item in row) + '\n'` (the callers only pass
strings, on which `str` is the identity). -/
def rowLine (row : List String) : String :=
  String.intercalate "," row ++ "\n"

/-- The header row written by `CSV_Interface.__init__`. -/
def headerRow : List String :=
  ["Time since boot (mm:ss:msms)", "G-Force"]

/-- State of a `CSV_Interface` object: the persisted file content and the
`impact_count` attribute set in `__init__`.  The filename and the lock
object itself are part of the concurrency model further below. -/
structure CSV_Interface where
  content : String
  impact_count : Nat
deriving DecidableEq

/-- `write_row`: append `','.join(row) + '\n'` to the file (open/append/
flush/close under the lock collapse to this content extension).  Note that
`write_row` does not touch `impact_count`. -/
def CSV_Interface.write_row (c : CSV_Interface) (row : List String) : CSV_Interface :=
  { c with content := c.content ++ rowLine row }

/-- `__init__`: delete any existing file (content becomes empty), set
`impact_count = 0`, then write the header row via `write_row`. -/
def CSV_Interface.init : CSV_Interface :=
  CSV_Interface.write_row { content := "", impact_count := 0 } headerRow

/-- `get_content`: read the whole file back (under the lock). -/
def CSV_Interface.get_content (c : CSV_Interface) : String :=
  c.content

/-- Modelled from the spec: the producer (the `AlertMonitor` sampling loop,
whose source is not under `src/`; only the log class and the web server
that reads `impact_count` are) performs each successful append by calling
`CSV_Interface.write_row` and incrementing the shared `impact_count`
counter on the log object — spec section 4.1 ("`append(record)` ...
increments `version`") and section 9 ("the source mutates the log object to
add a counter post-construction"). -/
def CSV_Interface.append (c : CSV_Interface) (row : List String) : CSV_Interface :=
  let c2 := c.write_row row
  { c2 with impact_count := c2.impact_count + 1 }

/-! ### `src/webserver/webserver.py`: firewall configuration -/

def ALLOWED_PATHS : List String := ["/", "/status", "/table_rows"]

def ALLOWED_SUBNET : String := "192.168.4."

def MAX_REQUESTS : Nat := 10

def WINDOW_MS : Int := 5000

/-- `ip_allowed(peer)`: `peer` is the `peername` pair; we model it by its
address component (`peer[0]`), with `none` for an absent/falsy peer. -/
def ip_allowed (peer : Option String) : Bool :=
  match peer with
  | none => false
  | some ip => pyStartsWith ip ALLOWED_SUBNET

/-- The global `CLIENT_HITS` dictionary; `dict.get(ip, [])` makes an absent
key read as `[]`, so a total function is a faithful model. -/
def RateTable : Type := String → List Int

def emptyHits : RateTable := fun _ => []

/-- `rate_limited(ip)`: drop entries of `ip`'s window older than
`WINDOW_MS`, append `now`, store the window back, and report whether the
resulting count exceeds `MAX_REQUESTS`.  Returns the result together with
the updated `CLIENT_HITS`. -/
def rate_limited (tbl : RateTable) (now : Int) (ip : String) : Bool × RateTable :=
  let hits := tbl ip
  let hits2 := hits.filter (fun t => now - t < WINDOW_MS) ++ [now]
  (decide (MAX_REQUESTS < hits2.length), fun j => if j = ip then hits2 else tbl j)

/-! ### `BufferedWriter` -/

/-- An argument passed to `BufferedWriter.write`: either a byte sequence
(`bytes`/`bytearray`) or any other value, which the source converts with
`str(data).encode('utf-8')`.  The callers only ever pass byte literals or
strings. -/
inductive PyData
  | bytes (s : String)
  | text (s : String)
deriving DecidableEq

/-- The byte-coercion done at the top of `BufferedWriter.write`; on the
(ASCII) strings involved, `str(data).encode('utf-8')` is the string
itself. -/
def PyData.coerce : PyData → String
  | .bytes s => s
  | .text s => s

/-- `BufferedWriter` state: `sink` is the byte stream already delivered to
the underlying `writer` (through `writer.write`/`drain`), `buffer` the
in-memory `bytearray`, `size` the flush threshold. -/
structure BufferedWriter where
  sink : String
  buffer : String
  size : Nat
deriving DecidableEq

/-- `BufferedWriter(writer)` with the default threshold `size=2048`. -/
def BufferedWriter.fresh : BufferedWriter :=
  { sink := "", buffer := "", size := 2048 }

/-- `flush()`: `if self.buffer:` send the buffered bytes through the sink
and reset the buffer; a no-op on an empty buffer. -/
def BufferedWriter.flush (w : BufferedWriter) : BufferedWriter :=
  if w.buffer = "" then w
  else { w with sink := w.sink ++ w.buffer, buffer := "" }

/-- `write(data)`: coerce to bytes, extend the buffer, and flush once
`len(self.buffer) >= self.size`. -/
def BufferedWriter.write (w : BufferedWriter) (d : PyData) : BufferedWriter :=
  let w2 : BufferedWriter := { w with buffer := w.buffer ++ d.coerce }
  if w2.size ≤ w2.buffer.utf8ByteSize then w2.flush else w2

/-- All bytes a writer has absorbed: delivered bytes followed by the
residual buffer. -/
def bwOut (w : BufferedWriter) : String :=
  w.sink ++ w.buffer

/-! ### Streaming renderers -/

/-- The inner cell loop of both renderers:
`for col in cols: await buf_writer.write(b"<td>" + col.encode('utf-8') + b"</td>")`. -/
def writeCells (w : BufferedWriter) (cols : List String) : BufferedWriter :=
  cols.foldl (fun w col => w.write (.bytes ("<td>" ++ col ++ "</td>"))) w

/-- Header-cell loop of `stream_full_table` (`<th>` instead of `<td>`). -/
def writeHeadCells (w : BufferedWriter) (cols : List String) : BufferedWriter :=
  cols.foldl (fun w col => w.write (.bytes ("<th>" ++ col ++ "</th>"))) w

/-- Body of the `for line in rows[1:]` loop of `stream_rows_only`. -/
def writeBodyRow (w : BufferedWriter) (line : String) : BufferedWriter :=
  let cols := splitChar ',' line
  let w := w.write (.bytes "<tr>")
  let w := writeCells w cols
  w.write (.bytes "</tr>\n")

/-- `stream_rows_only(buf_writer, csv_data)`: strip and drop empty lines,
skip the header (index 0), and emit one `<tr>` per remaining line. -/
def stream_rows_only (w : BufferedWriter) (csv_data : String) : BufferedWriter :=
  if csv_data = "" then w
  else
    let lines := splitChar '\n' csv_data
    let rows := (lines.map pyStrip).filter (fun l => l ≠ "")
    if 1 < rows.length then (rows.drop 1).foldl writeBodyRow w else w

/-- The `for line in lines` loop of `stream_full_table`, carrying the
`is_header` flag. -/
def fullTableLoop (w : BufferedWriter) : Bool → List String → BufferedWriter
  | _, [] => w
  | is_header, line :: rest =>
    if pyStrip line = "" then fullTableLoop w is_header rest
    else
      let cols := splitChar ',' (pyStrip line)
      if is_header then
        let w := w.write (.bytes "<thead><tr>")
        let w := writeHeadCells w cols
        let w := w.write (.bytes "</tr></thead><tbody>\n")
        fullTableLoop w false rest
      else
        let w := w.write (.bytes "<tr>")
        let w := writeCells w cols
        let w := w.write (.bytes "</tr>\n")
        fullTableLoop w is_header rest

/-- The opening tag written by `stream_full_table`. -/
def tableOpen : String := "<table border=\x271\x27 cellpadding=\x276\x27>\n"

/-- `stream_full_table(buf_writer, csv_data)`: on non-empty content, write
the `<table>` opening, render the first non-empty line as a `<thead>` row
of `<th>` cells and each later non-empty line as a `<tr>` of `<td>` cells,
then close with `</tbody></table>`. -/
def stream_full_table (w : BufferedWriter) (csv_data : String) : BufferedWriter :=
  if csv_data = "" then w
  else
    let lines := splitChar '\n' csv_data
    let w := w.write (.bytes tableOpen)
    let w := fullTableLoop w true lines
    w.write (.bytes "</tbody></table>")

/-- `stream_file(buf_writer, filename)`: stream a file through the writer;
`none` stands for `OSError` on `open`, which the source swallows.  (The
source reads in 1024-byte chunks; chunk boundaries only affect when the
buffer crosses its threshold, not the byte stream, and no verified
property depends on them, so the content is written in one `write`.) -/
def stream_file (w : BufferedWriter) (content : Option String) : BufferedWriter :=
  match content with
  | none => w
  | some s => w.write (.bytes s)

/-! ### `handle_client` -/

def http403 : String := "HTTP/1.1 403 Forbidden\r\n\r\n"

def http429 : String := "HTTP/1.1 429 Too Many Requests\r\n\r\n"

def http405 : String := "HTTP/1.1 405 Method Not Allowed\r\n\r\n"

def http200plain : String := "HTTP/1.1 200 OK\r\nContent-Type: text/plain\r\n\r\n"

def http200html : String := "HTTP/1.1 200 OK\r\nContent-Type: text/html\r\n\r\n"

def cssPlaceholder : String := "\x7b\x7bCSS_PLACEHOLDER\x7d\x7d"

def tablePlaceholder : String := "\x7b\x7bTABLE_PLACEHOLDER\x7d\x7d"

def indexErrorMsg : String := "<h1>Error: index.html not found</h1>"

/-- The f-string `js_script` of the `/` route, parameterised by
`page_load_count`. -/
def js_script (page_load_count : Nat) : String :=
  "\n                <script>\n                    let localCount = "
    ++ Nat.repr page_load_count
    ++ ";\n                    const tbody = document.querySelector(\"tbody\");\n\n                    setInterval(() => \x7b\n                        fetch(\x27/status\x27)\n                        .then(r => r.text())\n                        .then(serverCount => \x7b\n                            if (serverCount != localCount) \x7b\n                                fetch(\x27/table_rows\x27)\n                                .then(r => r.text())\n                                .then(html => \x7b\n                                    tbody.innerHTML = html;\n                                    localCount = serverCount;\n                                \x7d);\n                            \x7d\n                        \x7d);\n                    \x7d, 2000); \n                </script>\n                "

/-- Everything one connection supplies to `handle_client`:
* `peer`      — address component of `writer.get_extra_info("peername")`
                (`none` for an absent/falsy peer);
* `reqLine`   — the decoded request line, `none` when `reader.readline()`
                returns empty bytes (EOF);
* `impact_count` — `getattr(csv_interface, 'impact_count', 0)`;
* `getContent` — outcome of `csv_interface.get_content()` on this
                connection: the snapshot, or `none` when the underlying
                storage raises `OSError`;
* `indexHtml` — lines of `webserver/index.html` (each including its
                trailing newline), `none` when `open` raises `OSError`;
* `styleCss`  — content of `webserver/style.css`, `none` on `OSError`.
Header lines after the request line are read and discarded by the source
and so do not appear in the model. -/
structure ConnInput where
  peer : Option String
  reqLine : Option String
  impact_count : Nat
  getContent : Option String
  indexHtml : Option (List String)
  styleCss : Option String

/-- The `for line in f` loop of the `/` route: a line containing the CSS
placeholder streams the stylesheet, one containing the table placeholder
takes a fresh snapshot (whose `OSError`, if any, aborts the loop and is
reported in the second component), every other line is forwarded
verbatim. -/
def templateLoop (cin : ConnInput) : BufferedWriter → List String → BufferedWriter × Bool
  | w, [] => (w, false)
  | w, line :: rest =>
    if containsS line cssPlaceholder then
      templateLoop cin (stream_file w cin.styleCss) rest
    else if containsS line tablePlaceholder then
      match cin.getContent with
      | none => (w, true)
      | some csv_data => templateLoop cin (stream_full_table w csv_data) rest
    else
      templateLoop cin (w.write (.text line)) rest

/-- The `try:` body of `handle_client` (lines 100-206): returns the
buffered writer as it stands when control reaches the `finally:` block,
the updated `CLIENT_HITS` table, and whether an exception escaped to the
handler-level `except` (line 208). -/
def handle_body (tbl : RateTable) (now : Int) (cin : ConnInput) :
    BufferedWriter × RateTable × Bool :=
  let w := BufferedWriter.fresh
  let ip := cin.peer.getD "unknown"
  if ip_allowed cin.peer then
    let rl := rate_limited tbl now ip
    if rl.1 then (((w.write (.bytes http429)).flush), rl.2, false)
    else
      match cin.reqLine with
      | none => (w, rl.2, false)
      | some rline =>
        let request_str := pyStrip rline
        let parts := splitChar ' ' request_str
        if parts.length < 3 then (w, rl.2, false)
        else
          let method := parts.getD 0 ""
          let path := parts.getD 1 ""
          if method = "GET" then
            if path ∈ ALLOWED_PATHS then
              if path = "/status" then
                let w := w.write (.bytes http200plain)
                let w := w.write (.text (Nat.repr cin.impact_count))
                (w.flush, rl.2, false)
              else if path = "/table_rows" then
                let w := w.write (.bytes http200html)
                match cin.getContent with
                | none => (w, rl.2, true)
                | some csv_data => ((stream_rows_only w csv_data).flush, rl.2, false)
              else
                let w := w.write (.bytes http200html)
                let w :=
                  match cin.indexHtml with
                  | none => w.write (.bytes indexErrorMsg)
                  | some tlines =>
                    match templateLoop cin w tlines with
                    | (w2, true) => w2.write (.bytes indexErrorMsg)
                    | (w2, false) => w2.write (.text (js_script cin.impact_count))
                (w.flush, rl.2, false)
            else (((w.write (.bytes http403)).flush), rl.2, false)
          else (((w.write (.bytes http405)).flush), rl.2, false)
  else (((w.write (.bytes http403)).flush), tbl, false)

/-- The observable outcome of one `handle_client` call. -/
structure HandlerOut where
  w : BufferedWriter
  table : RateTable
  raised : Bool
  finalized : Nat
  closed : Bool

/-- The `finally:` block (lines 210-215): `writer.drain()`,
`writer.close()`, `writer.wait_closed()`.  It operates on the raw writer
only — `buf_writer.flush()` is not called — so `sink` and `buffer` are
left as they are; the connection is closed and the finalization counter
incremented. -/
def finalizeConn (o : HandlerOut) : HandlerOut :=
  { o with finalized := o.finalized + 1, closed := true }

/-- `handle_client(reader, writer, csv_interface)`: the `try:` body
followed, on every path (the handler-level `except` merely logs), by the
`finally:` block exactly once. -/
def handle_client (tbl : RateTable) (now : Int) (cin : ConnInput) : HandlerOut :=
  let p := handle_body tbl now cin
  finalizeConn { w := p.1, table := p.2.1, raised := p.2.2, finalized := 0, closed := false }

/-! ### Concurrency model for the log lock

`CSV_Interface` guards every file access with `self.lock`
(`_thread.allocate_lock()`): `write_row` holds it across
open/write/flush/close, `get_content` across open/read.  The two actors of
the system — the producer appending rows and a server task taking a
snapshot — are modelled as micro-operation streams interleaved by an
arbitrary scheduler; the lock is the only synchronisation. -/

/-- A micro-operation inside a lock-protected critical section. -/
inductive MOp
  | acq
  | wr (s : String)
  | rd
  | rel
deriving DecidableEq

/-- The two actors sharing the log: the appending producer and the
snapshot-taking reader. -/
inductive Tid
  | prod
  | rdr
deriving DecidableEq

/-- A global state of the interleaved system: the persisted file content,
the lock owner, the remaining micro-operations of each actor, and the
value returned by the reader's `get_content` (once taken). -/
structure CState where
  content : String
  owner : Option Tid
  prodOps : List MOp
  rdrOps : List MOp
  result : Option String
deriving DecidableEq

/-- `write_row row` as the producer's micro-operations: acquire the lock,
extend the file by the full line, release. -/
def appendOps (row : List String) : List MOp :=
  [MOp.acq, MOp.wr (rowLine row), MOp.rel]

/-- The producer appending `rows`, one `write_row` per row. -/
def prodProg (rows : List (List String)) : List MOp :=
  (rows.map appendOps).flatten

/-- `get_content` as the reader's micro-operations. -/
def readerProg : List MOp :=
  [MOp.acq, MOp.rd, MOp.rel]

/-- One scheduler step: either actor may run its next micro-operation,
subject to the lock discipline (`acq` only when the lock is free, the
other operations only while holding it). -/
inductive LStep : CState → CState → Prop
  | prodAcq (c : String) (rest rd : List MOp) (res : Option String) :
      LStep ⟨c, none, MOp.acq :: rest, rd, res⟩ ⟨c, some Tid.prod, rest, rd, res⟩
  | prodWr (c t : String) (rest rd : List MOp) (res : Option String) :
      LStep ⟨c, some Tid.prod, MOp.wr t :: rest, rd, res⟩
            ⟨c ++ t, some Tid.prod, rest, rd, res⟩
  | prodRel (c : String) (rest rd : List MOp) (res : Option String) :
      LStep ⟨c, some Tid.prod, MOp.rel :: rest, rd, res⟩ ⟨c, none, rest, rd, res⟩
  | rdrAcq (c : String) (pr rest : List MOp) (res : Option String) :
      LStep ⟨c, none, pr, MOp.acq :: rest, res⟩ ⟨c, some Tid.rdr, pr, rest, res⟩
  | rdrRd (c : String) (pr rest : List MOp) (res : Option String) :
      LStep ⟨c, some Tid.rdr, pr, MOp.rd :: rest, res⟩
            ⟨c, some Tid.rdr, pr, rest, some c⟩
  | rdrRel (c : String) (pr rest : List MOp) (res : Option String) :
      LStep ⟨c, some Tid.rdr, pr, MOp.rel :: rest, res⟩ ⟨c, none, pr, rest, res⟩

/-- Reachability under arbitrary interleaving. -/
def LReach : CState → CState → Prop :=
  Relation.ReflTransGen LStep

/-- Initial state: freshly initialised log (header on file), lock free,
producer about to append `rows`, reader about to take one snapshot. -/
def initState (rows : List (List String)) : CState :=
  ⟨CSV_Interface.init.content, none, prodProg rows, readerProg, none⟩

/-- File content once the first `k` of `rows` have been appended. -/
def fileAfter (rows : List (List String)) (k : Nat) : String :=
  CSV_Interface.init.content ++ String.join ((rows.take k).map rowLine)

/-! ### The byte stream of a `BufferedWriter` -/

theorem strFoldlAppend (l : List String) (s : String) :
    l.foldl (fun r x => r ++ x) s = s ++ l.foldl (fun r x => r ++ x) "" := by
  induction l generalizing s with
  | nil => simp only [List.foldl_nil, String.append_empty]
  | cons a t ih =>
    simp only [List.foldl_cons]
    rw [ih (s ++ a), ih ("" ++ a), String.empty_append, String.append_assoc]

theorem strJoin_cons (s : String) (l : List String) :
    String.join (s :: l) = s ++ String.join l := by
  simp only [String.join, List.foldl_cons]
  rw [strFoldlAppend l ("" ++ s), String.empty_append]

theorem flush_sink (w : BufferedWriter) : w.flush.sink = bwOut w := by
  unfold BufferedWriter.flush bwOut
  split
  · rename_i h
    rw [h, String.append_empty]
  · rfl

theorem flush_buffer (w : BufferedWriter) : w.flush.buffer = "" := by
  unfold BufferedWriter.flush
  split
  · assumption
  · rfl

theorem flush_size (w : BufferedWriter) : w.flush.size = w.size := by
  unfold BufferedWriter.flush
  split <;> rfl

theorem bwOut_flush (w : BufferedWriter) : bwOut w.flush = bwOut w := by
  unfold bwOut
  rw [flush_sink, flush_buffer, String.append_empty]
  rfl

theorem strJoin_nil : String.join [] = "" := rfl

theorem bwOut_write (w : BufferedWriter) (d : PyData) :
    bwOut (w.write d) = bwOut w ++ d.coerce := by
  simp only [BufferedWriter.write]
  split
  · rw [bwOut_flush]
    simp only [bwOut, String.append_assoc]
  · simp only [bwOut, String.append_assoc]

theorem write_size (w : BufferedWriter) (d : PyData) :
    (w.write d).size = w.size := by
  simp only [BufferedWriter.write]
  split
  · rw [flush_size]
  · rfl

/-! ### Pure descriptions of the rendered fragments -/

def tdCell (col : String) : String := "<td>" ++ col ++ "</td>"

def thCell (col : String) : String := "<th>" ++ col ++ "</th>"

/-- The bytes `stream_rows_only` emits for one (already stripped) body
line, and `stream_full_table` for one non-empty body line. -/
def renderBodyRow (line : String) : String :=
  "<tr>" ++ String.join ((splitChar ',' line).map tdCell) ++ "</tr>\n"

/-- The bytes `stream_full_table` emits for the header line. -/
def renderHeadRow (line : String) : String :=
  "<thead><tr>" ++ String.join ((splitChar ',' (pyStrip line)).map thCell)
    ++ "</tr></thead><tbody>\n"

/-- `rows` as computed by `stream_rows_only`: stripped non-empty lines. -/
def rowsOf (csv_data : String) : List String :=
  ((splitChar '\n' csv_data).map pyStrip).filter (fun l => l ≠ "")

/-- What `stream_rows_only` writes in total. -/
def renderRowsOnly (csv_data : String) : String :=
  String.join (((rowsOf csv_data).drop 1).map renderBodyRow)

/-- What the line loop of `stream_full_table` writes in total. -/
def renderTableLines : Bool → List String → String
  | _, [] => ""
  | is_header, line :: rest =>
    if pyStrip line = "" then renderTableLines is_header rest
    else if is_header then renderHeadRow line ++ renderTableLines false rest
    else renderBodyRow (pyStrip line) ++ renderTableLines is_header rest

theorem bwOut_writeCells (cols : List String) (w : BufferedWriter) :
    bwOut (writeCells w cols) = bwOut w ++ String.join (cols.map tdCell) := by
  induction cols generalizing w with
  | nil => simp only [writeCells, List.foldl_nil, List.map_nil, String.join, String.append_empty]
  | cons c t ih =>
    simp only [writeCells, List.foldl_cons, List.map_cons] at *
    rw [ih, bwOut_write, strJoin_cons, String.append_assoc]
    rfl

theorem bwOut_writeHeadCells (cols : List String) (w : BufferedWriter) :
    bwOut (writeHeadCells w cols) = bwOut w ++ String.join (cols.map thCell) := by
  induction cols generalizing w with
  | nil => simp only [writeHeadCells, List.foldl_nil, List.map_nil, String.join,
      String.append_empty]
  | cons c t ih =>
    simp only [writeHeadCells, List.foldl_cons, List.map_cons] at *
    rw [ih, bwOut_write, strJoin_cons, String.append_assoc]
    rfl

theorem bwOut_writeBodyRow (w : BufferedWriter) (line : String) :
    bwOut (writeBodyRow w line) = bwOut w ++ renderBodyRow line := by
  simp only [writeBodyRow, renderBodyRow]
  rw [bwOut_write, bwOut_writeCells, bwOut_write]
  simp only [PyData.coerce, String.append_assoc]

theorem bwOut_bodyRows (lines : List String) (w : BufferedWriter) :
    bwOut (lines.foldl writeBodyRow w) = bwOut w ++ String.join (lines.map renderBodyRow) := by
  induction lines generalizing w with
  | nil => simp only [List.foldl_nil, List.map_nil, strJoin_nil, String.append_empty]
  | cons l t ih =>
    simp only [List.foldl_cons, List.map_cons]
    rw [ih, bwOut_writeBodyRow, strJoin_cons, String.append_assoc]

theorem bwOut_stream_rows_only (w : BufferedWriter) (csv_data : String) :
    bwOut (stream_rows_only w csv_data) = bwOut w ++ renderRowsOnly csv_data := by
  simp only [stream_rows_only, renderRowsOnly, rowsOf]
  split
  · rename_i h
    subst h
    rw [show (((((splitChar '\n' "").map pyStrip).filter (fun l => l ≠ "")).drop 1)
        : List String) = [] from rfl]
    simp only [List.map_nil, strJoin_nil, String.append_empty]
  · split
    · rw [bwOut_bodyRows]
    · rename_i hlen
      rw [List.drop_eq_nil_of_le (by omega), List.map_nil]
      simp only [strJoin_nil, String.append_empty]

theorem bwOut_fullTableLoop (lines : List String) (hdr : Bool) (w : BufferedWriter) :
    bwOut (fullTableLoop w hdr lines) = bwOut w ++ renderTableLines hdr lines := by
  induction lines generalizing w hdr with
  | nil => simp only [fullTableLoop, renderTableLines, String.append_empty]
  | cons l t ih =>
    simp only [fullTableLoop, renderTableLines]
    split
    · rw [ih]
    · split
      · rw [ih, bwOut_write, bwOut_writeHeadCells, bwOut_write, renderHeadRow]
        simp only [PyData.coerce, String.append_assoc]
      · rw [ih, bwOut_write, bwOut_writeCells, bwOut_write, renderBodyRow]
        simp only [PyData.coerce, String.append_assoc]

theorem bwOut_stream_full_table (w : BufferedWriter) (csv_data : String)
    (h : csv_data ≠ "") :
    bwOut (stream_full_table w csv_data) =
      bwOut w ++ tableOpen ++ renderTableLines true (splitChar '\n' csv_data)
        ++ "</tbody></table>" := by
  simp only [stream_full_table]
  rw [if_neg h, bwOut_write, bwOut_fullTableLoop, bwOut_write]
  simp only [PyData.coerce, String.append_assoc]

/-! ### Path lemmas for `handle_client` -/

theorem handle_body_403 (tbl : RateTable) (now : Int) (cin : ConnInput)
    (h : ip_allowed cin.peer = false) :
    handle_body tbl now cin =
      ((BufferedWriter.fresh.write (.bytes http403)).flush, tbl, false) := by
  simp only [handle_body, h, Bool.false_eq_true, if_false]

theorem handle_body_429 (tbl : RateTable) (now : Int) (cin : ConnInput)
    (h1 : ip_allowed cin.peer = true)
    (h2 : (rate_limited tbl now (cin.peer.getD "unknown")).1 = true) :
    handle_body tbl now cin =
      ((BufferedWriter.fresh.write (.bytes http429)).flush,
        (rate_limited tbl now (cin.peer.getD "unknown")).2, false) := by
  simp only [handle_body, h1, if_true, h2]

theorem handle_body_noline (tbl : RateTable) (now : Int) (cin : ConnInput)
    (h1 : ip_allowed cin.peer = true)
    (h2 : (rate_limited tbl now (cin.peer.getD "unknown")).1 = false)
    (h3 : cin.reqLine = none) :
    handle_body tbl now cin =
      (BufferedWriter.fresh, (rate_limited tbl now (cin.peer.getD "unknown")).2, false) := by
  simp only [handle_body, h1, if_true, h2, Bool.false_eq_true, if_false, h3]

theorem handle_body_status (tbl : RateTable) (now : Int) (ip : String) (n : Nat)
    (gc : Option String) (ihv : Option (List String)) (css : Option String)
    (h1 : ip_allowed (some ip) = true)
    (h2 : (rate_limited tbl now ip).1 = false) :
    handle_body tbl now ⟨some ip, some ("GET /status HTTP/1.1"), n, gc, ihv, css⟩ =
      (((BufferedWriter.fresh.write (.bytes http200plain)).write
          (.text (Nat.repr n))).flush,
        (rate_limited tbl now ip).2, false) := by
  simp only [handle_body, Option.getD_some, h1, if_true, h2, Bool.false_eq_true, if_false]
  rw [show splitChar ' ' (pyStrip ("GET /status HTTP/1.1")) = ["GET", "/status", "HTTP/1.1"]
    from rfl]
  simp [ALLOWED_PATHS]

/-- On every branch of the `try:` body, either an exception escaped to the
handler-level `except` or the buffer was flushed (explicitly, before the
`return`) and is empty. -/
theorem handle_body_buffer (tbl : RateTable) (now : Int) (cin : ConnInput) :
    (handle_body tbl now cin).2.2 = true ∨ (handle_body tbl now cin).1.buffer = "" := by
  simp only [handle_body]
  repeat' split
  all_goals
    first
      | exact Or.inr (flush_buffer _)
      | exact Or.inr rfl
      | exact Or.inl rfl

/-- `impact_count` after a sequence of producer appends. -/
theorem append_foldl_count (rows : List (List String)) (c : CSV_Interface) :
    (List.foldl CSV_Interface.append c rows).impact_count = c.impact_count + rows.length := by
  induction rows generalizing c with
  | nil => simp
  | cons r t ih =>
    simp only [List.foldl_cons, ih, CSV_Interface.append, CSV_Interface.write_row,
      List.length_cons]
    omega

/-- C1: starting from a freshly initialized log (truncated, header written,
`impact_count = 0`), after `N` successful appends the log's version counter
(`impact_count`) equals the initial version plus `N`, and `GET /status`
from an allowed, non-rate-limited peer answers `200 OK` with content type
`text/plain` and body exactly that version rendered as a decimal integer. -/
theorem C1_version_counter_and_status (rows : List (List String)) (tbl : RateTable)
    (now : Int) (ip : String) (gc : Option String) (ihv : Option (List String))
    (css : Option String)
    (h1 : ip_allowed (some ip) = true)
    (h2 : (rate_limited tbl now ip).1 = false) :
    (List.foldl CSV_Interface.append CSV_Interface.init rows).impact_count
      = CSV_Interface.init.impact_count + rows.length
    ∧ (handle_client tbl now ⟨some ip, some ("GET /status HTTP/1.1"),
          (List.foldl CSV_Interface.append CSV_Interface.init rows).impact_count,
          gc, ihv, css⟩).w.sink
        = http200plain ++ Nat.repr rows.length
    ∧ (handle_client tbl now ⟨some ip, some ("GET /status HTTP/1.1"),
          (List.foldl CSV_Interface.append CSV_Interface.init rows).impact_count,
          gc, ihv, css⟩).w.buffer = "" := by
  have hzero : CSV_Interface.init.impact_count = 0 := rfl
  have hcount : (List.foldl CSV_Interface.append CSV_Interface.init rows).impact_count
      = rows.length := by
    rw [append_foldl_count, hzero]
    omega
  have hb := handle_body_status tbl now ip rows.length gc ihv css h1 h2
  refine ⟨?_, ?_, ?_⟩
  · rw [hcount, hzero]
    omega
  · rw [hcount]
    simp only [handle_client, hb, finalizeConn]
    rw [flush_sink, bwOut_write, bwOut_write]
    simp only [PyData.coerce]
    rw [show bwOut BufferedWriter.fresh = "" from rfl, String.empty_append]
  · rw [hcount]
    simp only [handle_client, hb, finalizeConn]
    exact flush_buffer _

/-- Witness for C1 at two concrete appended rows and a concrete client. -/
theorem C1_witness :
    ip_allowed (some ("192.168.4.7")) = true
    ∧ (rate_limited emptyHits 0 ("192.168.4.7")).1 = false
    ∧ (List.foldl CSV_Interface.append CSV_Interface.init
        [["00:01:23", "2.70g"], ["00:02:00", "4.10g"]]).impact_count
        = CSV_Interface.init.impact_count + 2
    ∧ (handle_client emptyHits 0 ⟨some ("192.168.4.7"), some ("GET /status HTTP/1.1"),
          (List.foldl CSV_Interface.append CSV_Interface.init
            [["00:01:23", "2.70g"], ["00:02:00", "4.10g"]]).impact_count,
          none, none, none⟩).w.sink
        = http200plain ++ "2" := by
  have h := C1_version_counter_and_status
    [["00:01:23", "2.70g"], ["00:02:00", "4.10g"]] emptyHits 0 ("192.168.4.7")
    none none none (by decide) (by decide)
  exact ⟨by decide, by decide, h.1, h.2.1⟩

/-- C4: a connection whose peer is absent or whose address does not start
with the allowed prefix gets `403 Forbidden` (fully delivered, nothing
left buffered), and neither `rate_limited` nor any routing runs — in
particular `CLIENT_HITS` is returned unchanged, whatever the request
line and resources are. -/
theorem C4_ip_filter (tbl : RateTable) (now : Int) (cin : ConnInput)
    (h : ip_allowed cin.peer = false) :
    (handle_client tbl now cin).w.sink = http403
    ∧ (handle_client tbl now cin).w.buffer = ""
    ∧ (handle_client tbl now cin).table = tbl := by
  have hb := handle_body_403 tbl now cin h
  simp only [handle_client, hb, finalizeConn]
  refine ⟨?_, ?_, ?_⟩ <;> trivial

/-- Witness for C4: an absent peer. -/
theorem C4_witness :
    (handle_client emptyHits 0 ⟨none, some ("GET /status HTTP/1.1"), 0, none, none, none⟩).w.sink
      = http403
    ∧ (handle_client emptyHits 0
        ⟨none, some ("GET /status HTTP/1.1"), 0, none, none, none⟩).table = emptyHits := by
  have h := C4_ip_filter emptyHits 0
    ⟨none, some ("GET /status HTTP/1.1"), 0, none, none, none⟩ (by decide)
  exact ⟨h.1, h.2.2⟩

/-- C5 counterexample: a connection with an absent request line but a
disallowed (absent) peer receives the `403` response bytes — so it is not
the case that the handler first reads the request line and closes silently
regardless of the peer's address: the IP filter runs first and writes a
response. -/
theorem C5_counterexample :
    (handle_client emptyHits 0 ⟨none, none, 0, none, none, none⟩).w.sink = http403
    ∧ (handle_client emptyHits 0 ⟨none, none, 0, none, none, none⟩).w.sink ≠ "" := by
  exact ⟨by decide, by decide⟩

/-- C5 amended: only after the IP filter and the rate limiter have passed
does the handler read the request line; if it is empty/absent the
connection ends immediately: no response bytes are written or buffered, no
error is surfaced (nothing reaches the handler-level `except`), and the
connection is closed. -/
theorem C5_silent_close_after_checks (tbl : RateTable) (now : Int) (cin : ConnInput)
    (h1 : ip_allowed cin.peer = true)
    (h2 : (rate_limited tbl now (cin.peer.getD "unknown")).1 = false)
    (h3 : cin.reqLine = none) :
    (handle_client tbl now cin).w.sink = ""
    ∧ (handle_client tbl now cin).w.buffer = ""
    ∧ (handle_client tbl now cin).raised = false
    ∧ (handle_client tbl now cin).closed = true := by
  have hb := handle_body_noline tbl now cin h1 h2 h3
  simp only [handle_client, hb, finalizeConn]
  refine ⟨?_, ?_, ?_, ?_⟩ <;> trivial

/-- Witness for the amended C5: allowed peer, fresh rate table, absent
request line. -/
theorem C5_witness :
    (handle_client emptyHits 0 ⟨some ("192.168.4.7"), none, 0, none, none, none⟩).w.sink = ""
    ∧ (handle_client emptyHits 0
        ⟨some ("192.168.4.7"), none, 0, none, none, none⟩).raised = false := by
  have h := C5_silent_close_after_checks emptyHits 0
    ⟨some ("192.168.4.7"), none, 0, none, none, none⟩ (by decide) (by decide) rfl
  exact ⟨h.1, h.2.2.1⟩

/-- C6 counterexample: on the `/table_rows` route with a failing
`get_content()`, the exception reaches the handler-level `except` and the
`finally:` block runs with the `200 OK` header still sitting in the
BufferedWriter's buffer; finalization closes the connection without
flushing it, so those bytes are never delivered to the sink — refuting
"finalization ... flushes the BufferedWriter (delivering any bytes still
held in its buffer) before closing". -/
theorem C6_counterexample :
    (handle_client emptyHits 0 ⟨some ("192.168.4.7"), some ("GET /table_rows HTTP/1.1"),
        0, none, none, none⟩).w.buffer = http200html
    ∧ (handle_client emptyHits 0 ⟨some ("192.168.4.7"), some ("GET /table_rows HTTP/1.1"),
        0, none, none, none⟩).w.sink = ""
    ∧ (handle_client emptyHits 0 ⟨some ("192.168.4.7"), some ("GET /table_rows HTTP/1.1"),
        0, none, none, none⟩).closed = true := by
  exact ⟨by decide, by decide, by decide⟩

/-- C6 amended: finalization (`writer.drain(); writer.close();
wait_closed()`) runs exactly once and closes the underlying connection on
every exit path, but it does not flush the BufferedWriter; every
non-exception exit path has already flushed explicitly before returning
(empty residual buffer), while bytes still buffered when a caught
exception reaches `finally:` are discarded. -/
theorem C6_finalization (tbl : RateTable) (now : Int) (cin : ConnInput) :
    (handle_client tbl now cin).finalized = 1
    ∧ (handle_client tbl now cin).closed = true
    ∧ ((handle_client tbl now cin).raised = false →
        (handle_client tbl now cin).w.buffer = "") := by
  refine ⟨rfl, rfl, ?_⟩
  intro hr
  simp only [handle_client, finalizeConn] at hr ⊢
  rcases handle_body_buffer tbl now cin with h | h
  · rw [hr] at h
    cases h
  · exact h

/-- Witness for the amended C6 at a concrete, non-raising connection. -/
theorem C6_witness :
    (handle_client emptyHits 0 ⟨none, none, 0, none, none, none⟩).finalized = 1
    ∧ (handle_client emptyHits 0 ⟨none, none, 0, none, none, none⟩).closed = true
    ∧ (handle_client emptyHits 0 ⟨none, none, 0, none, none, none⟩).w.buffer = "" := by
  have h := C6_finalization emptyHits 0 ⟨none, none, 0, none, none, none⟩
  exact ⟨h.1, h.2.1, h.2.2 (by decide)⟩

/-! ### Call sequences against a `BufferedWriter` -/

/-- One call in a `write`/`flush` call sequence. -/
inductive WOp
  | wr (d : PyData)
  | fl
deriving DecidableEq

def applyWOp (w : BufferedWriter) : WOp → BufferedWriter
  | .wr d => w.write d
  | .fl => w.flush

def runWOps (w : BufferedWriter) (ops : List WOp) : BufferedWriter :=
  ops.foldl applyWOp w

/-- The concatenation, in order, of the coerced data of all `write` calls
in a sequence. -/
def coercedWrites : List WOp → String
  | [] => ""
  | .wr d :: r => d.coerce ++ coercedWrites r
  | .fl :: r => coercedWrites r

theorem bwOut_runWOps (ops : List WOp) (w : BufferedWriter) :
    bwOut (runWOps w ops) = bwOut w ++ coercedWrites ops := by
  induction ops generalizing w with
  | nil => simp only [runWOps, List.foldl_nil, coercedWrites, String.append_empty]
  | cons o t ih =>
    cases o with
    | wr d =>
      simp only [runWOps, List.foldl_cons, applyWOp, coercedWrites] at *
      rw [ih, bwOut_write, String.append_assoc]
    | fl =>
      simp only [runWOps, List.foldl_cons, applyWOp, coercedWrites] at *
      rw [ih, bwOut_flush]

/-- C9: for every sequence of `write`/`flush` calls against a fresh
`BufferedWriter` the delivered bytes followed by the residual buffer equal
the concatenation of all coerced write data in order; after any `write`
returns the buffer is strictly below the (positive) threshold; `flush`
always leaves the buffer empty; and `flush` on an empty buffer performs no
operation at all. -/
theorem C9_buffered_writer :
    (∀ (size : Nat) (ops : List WOp),
        bwOut (runWOps ⟨"", "", size⟩ ops) = coercedWrites ops)
    ∧ (∀ (w : BufferedWriter) (d : PyData), 0 < w.size →
        (w.write d).buffer.utf8ByteSize < w.size)
    ∧ (∀ w : BufferedWriter, w.flush.buffer = "")
    ∧ (∀ w : BufferedWriter, w.buffer = "" → w.flush = w) := by
  refine ⟨?_, ?_, flush_buffer, ?_⟩
  · intro size ops
    rw [bwOut_runWOps]
    rw [show bwOut (⟨"", "", size⟩ : BufferedWriter) = "" from rfl, String.empty_append]
  · intro w d hpos
    simp only [BufferedWriter.write]
    split
    · rw [flush_buffer]
      simpa using hpos
    · rename_i hlt
      exact Nat.lt_of_not_le hlt
  · intro w h
    simp only [BufferedWriter.flush, h, if_true]

/-- Witness for C9 at a concrete writer, op list and threshold. -/
theorem C9_witness :
    bwOut (runWOps ⟨"", "", 4⟩ [WOp.wr (.bytes "ab"), WOp.fl, WOp.wr (.text "cd")])
      = coercedWrites [WOp.wr (.bytes "ab"), WOp.fl, WOp.wr (.text "cd")]
    ∧ 0 < (⟨"", "ab", 2048⟩ : BufferedWriter).size
    ∧ ((⟨"", "ab", 2048⟩ : BufferedWriter).write (.bytes "cd")).buffer.utf8ByteSize
        < (⟨"", "ab", 2048⟩ : BufferedWriter).size := by
  exact ⟨C9_buffered_writer.1 4 _, by decide,
    C9_buffered_writer.2.1 ⟨"", "ab", 2048⟩ (.bytes "cd") (by decide)⟩

/-! ### Sequences of requests through the rate limiter -/

/-- Feed one request per timestamp in `ts` through `rate_limited` for a
fixed `ip`, collecting the per-request verdicts and the final table. -/
def runRL (tbl : RateTable) (ip : String) : List Int → List Bool × RateTable
  | [] => ([], tbl)
  | t :: ts =>
    let r := rate_limited tbl t ip
    let rest := runRL r.2 ip ts
    (r.1 :: rest.1, rest.2)

/-- If `ip`'s stored window is `pre` and every stored or upcoming
timestamp lies within `WINDOW_MS` of every upcoming one, then no entry is
ever evicted and the `i`-th verdict simply compares `pre.length + i + 1`
with `MAX_REQUESTS`. -/
theorem runRL_results (ts : List Int) (pre : List Int) (tbl : RateTable) (ip : String)
    (hpre : tbl ip = pre)
    (h1 : ∀ a ∈ pre, ∀ b ∈ ts, b - a < WINDOW_MS)
    (h2 : ∀ a ∈ ts, ∀ b ∈ ts, b - a < WINDOW_MS) :
    (runRL tbl ip ts).1
      = (List.range ts.length).map (fun i => decide (MAX_REQUESTS < pre.length + i + 1)) := by
  induction ts generalizing pre tbl with
  | nil => simp [runRL]
  | cons t ts ih =>
    have hkeep : pre.filter (fun a => decide (t - a < WINDOW_MS)) = pre := by
      rw [List.filter_eq_self]
      intro a ha
      exact decide_eq_true (h1 a ha t (List.mem_cons_self t ts))
    have hwin : (rate_limited tbl t ip).2 ip = pre ++ [t] := by
      simp [rate_limited, hpre, hkeep]
    have hfst : (rate_limited tbl t ip).1
        = decide (MAX_REQUESTS < pre.length + 0 + 1) := by
      simp only [rate_limited, hpre, hkeep]
      exact decide_eq_decide.mpr (by simp)
    have h1' : ∀ a ∈ pre ++ [t], ∀ b ∈ ts, b - a < WINDOW_MS := by
      intro a ha b hb
      rcases List.mem_append.mp ha with h | h
      · exact h1 a h b (List.mem_cons_of_mem t hb)
      · have ha' := List.mem_singleton.mp h
        subst ha'
        exact h2 a (List.mem_cons_self a ts) b (List.mem_cons_of_mem a hb)
    have h2' : ∀ a ∈ ts, ∀ b ∈ ts, b - a < WINDOW_MS := by
      intro a ha b hb
      exact h2 a (List.mem_cons_of_mem t ha) b (List.mem_cons_of_mem t hb)
    have ihx := ih (pre ++ [t]) (rate_limited tbl t ip).2 hwin h1' h2'
    simp only [runRL, ihx, hfst, List.length_cons, List.length_append,
      List.length_singleton]
    rw [List.range_succ_eq_map]
    simp only [List.map_cons, List.map_map]
    congr 1
    refine List.map_congr_left fun i _ => ?_
    simp only [Function.comp_apply, List.length_nil]
    exact decide_eq_decide.mpr (by omega)

/-- A table in which `192.168.4.7` has already made `MAX_REQUESTS`
requests at time 0. -/
def tenHits : RateTable :=
  fun j => if j = "192.168.4.7" then List.replicate 10 0 else []

/-- C3: `rate_limited` drops entries older than `WINDOW_MS`, appends the
current timestamp, touches no other IP's window, and returns true exactly
when the resulting count exceeds `MAX_REQUESTS`; consequently an IP whose
requests all fall within one window is never limited while it has made at
most `MAX_REQUESTS` requests, its `(MAX_REQUESTS+1)`-th request in the
window is limited, and a limited request is answered with `429 Too Many
Requests`. -/
theorem C3_rate_limiter :
    (∀ (tbl : RateTable) (now : Int) (ip : String),
        (rate_limited tbl now ip).2 ip
            = (tbl ip).filter (fun t => now - t < WINDOW_MS) ++ [now]
        ∧ (∀ j, j ≠ ip → (rate_limited tbl now ip).2 j = tbl j)
        ∧ ((rate_limited tbl now ip).1 = true ↔
            MAX_REQUESTS < ((rate_limited tbl now ip).2 ip).length))
    ∧ (∀ (ts : List Int) (tbl : RateTable) (ip : String),
        tbl ip = [] →
        (∀ a ∈ ts, ∀ b ∈ ts, b - a < WINDOW_MS) →
        (ts.length ≤ MAX_REQUESTS → ∀ b ∈ (runRL tbl ip ts).1, b = false)
        ∧ (ts.length = MAX_REQUESTS + 1 → (runRL tbl ip ts).1.getLast? = some true))
    ∧ (∀ (tbl : RateTable) (now : Int) (cin : ConnInput),
        ip_allowed cin.peer = true →
        (rate_limited tbl now (cin.peer.getD "unknown")).1 = true →
        (handle_client tbl now cin).w.sink = http429
        ∧ (handle_client tbl now cin).w.buffer = "") := by
  refine ⟨?_, ?_, ?_⟩
  · intro tbl now ip
    refine ⟨by simp [rate_limited], ?_, ?_⟩
    · intro j hj
      simp [rate_limited, hj]
    · have e : (rate_limited tbl now ip).2 ip
          = (tbl ip).filter (fun t => now - t < WINDOW_MS) ++ [now] := by
        simp [rate_limited]
      rw [e]
      simp [rate_limited]
  · intro ts tbl ip hemp hwin
    have hres := runRL_results ts [] tbl ip hemp (by simp) hwin
    constructor
    · intro hlen b hb
      rw [hres] at hb
      rcases List.mem_map.mp hb with ⟨i, hi, hbi⟩
      have hilt : i < ts.length := List.mem_range.mp hi
      rw [← hbi]
      simp only [List.length_nil]
      exact decide_eq_false (by simp only [MAX_REQUESTS] at *; omega)
    · intro hlen
      rw [hres, hlen, List.range_succ, List.map_append]
      simp only [List.map_cons, List.map_nil]
      rw [List.getLast?_concat]
      simp [MAX_REQUESTS]
  · intro tbl now cin h1 h2
    have hb := handle_body_429 tbl now cin h1 h2
    simp only [handle_client, hb, finalizeConn]
    exact ⟨by decide, by decide⟩

/-- Witness for C3: eleven instantaneous requests from a fresh window —
the 11th verdict is `true` — and a concrete limited request answered with
429. -/
theorem C3_witness :
    (runRL emptyHits ("192.168.4.7") (List.replicate 11 (0 : Int))).1.getLast? = some true
    ∧ (handle_client tenHits 0 ⟨some ("192.168.4.7"), some ("GET /status HTTP/1.1"),
        0, none, none, none⟩).w.sink = http429 := by
  refine ⟨?_, ?_⟩
  · exact (C3_rate_limiter.2.1 (List.replicate 11 (0 : Int)) emptyHits ("192.168.4.7")
      rfl (by decide)).2 (by decide)
  · exact (C3_rate_limiter.2.2 tenHits 0
      ⟨some ("192.168.4.7"), some ("GET /status HTTP/1.1"), 0, none, none, none⟩
      (by decide) (by decide)).1

/-! ### Renderer claims -/

/-- The example log of the spec: header `Time,G-Force`, then two rows. -/
def exampleLog : String :=
  "Time,G-Force\n00:01:23,2.70g\n00:02:00,4.10g\n"

/-- C7 counterexample: on a log whose header text recurs inside a body
field (header line `HDR`, body row `HDR,x`), the `/table_rows` output
does contain the header row's literal text — so "its output never
contains the header row's literal text" fails as a universal statement
even though the header line itself is never rendered. -/
theorem C7_counterexample :
    (rowsOf ("HDR\nHDR,x\n")).headD "" = "HDR"
    ∧ bwOut (stream_rows_only BufferedWriter.fresh ("HDR\nHDR,x\n"))
        = "<tr><td>HDR</td><td>x</td></tr>\n"
    ∧ containsS (bwOut (stream_rows_only BufferedWriter.fresh ("HDR\nHDR,x\n"))) ("HDR")
        = true := by
  exact ⟨by decide, by decide, by decide⟩

/-- C7 amended: `stream_rows_only` never renders the header line: its
output is exactly the concatenation of one `<tr>` of `<td>` cells per
non-empty line after the first (though a rendered body field may
textually repeat the header).  On the spec's example log the output is
exactly the claimed fragment up to insignificant whitespace and contains
neither the header row's text nor a `<table>` wrapper. -/
theorem C7_rows_only (w : BufferedWriter) (csv_data : String) :
    bwOut (stream_rows_only w csv_data) = bwOut w ++ renderRowsOnly csv_data
    ∧ stripWs (bwOut (stream_rows_only BufferedWriter.fresh exampleLog))
        = "<tr><td>00:01:23</td><td>2.70g</td></tr><tr><td>00:02:00</td><td>4.10g</td></tr>"
    ∧ containsS (bwOut (stream_rows_only BufferedWriter.fresh exampleLog)) ("Time,G-Force")
        = false
    ∧ containsS (bwOut (stream_rows_only BufferedWriter.fresh exampleLog)) ("<table")
        = false := by
  exact ⟨bwOut_stream_rows_only w csv_data, by decide, by decide, by decide⟩

/-- C8 counterexample: on empty log content `stream_full_table` emits
nothing at all — in particular no `<table>`/`</table>` pair — refuting
the claim for every log content. -/
theorem C8_counterexample :
    bwOut (stream_full_table BufferedWriter.fresh "") = ""
    ∧ containsS (bwOut (stream_full_table BufferedWriter.fresh "")) ("<table") = false := by
  exact ⟨by decide, by decide⟩

/-- C8 amended: for every non-empty log content, `stream_full_table`
wraps its output in the `<table ...>`/`</tbody></table>` pair, rendering
the first non-empty line as a `<thead>` row of `<th>` cells and every
subsequent non-empty line as a `<tr>` of `<td>` cells (the line loop
`renderTableLines`); on empty content it emits nothing. -/
theorem C8_full_table (w : BufferedWriter) (csv_data : String) (h : csv_data ≠ "") :
    bwOut (stream_full_table w csv_data)
      = bwOut w ++ tableOpen ++ renderTableLines true (splitChar '\n' csv_data)
        ++ "</tbody></table>" :=
  bwOut_stream_full_table w csv_data h

/-- Witness for the amended C8 at the spec's example log. -/
theorem C8_witness :
    bwOut (stream_full_table BufferedWriter.fresh exampleLog)
      = bwOut BufferedWriter.fresh ++ tableOpen
        ++ renderTableLines true (splitChar '\n' exampleLog) ++ "</tbody></table>" :=
  C8_full_table BufferedWriter.fresh exampleLog (by decide)

/-- C10: both renderers insert the raw comma-split field text verbatim
between the `<td>`/`<th>` tags — the cell loops emit exactly
`"<td>" ++ col ++ "</td>"` resp. `"<th>" ++ col ++ "</th>"` per field with
no escaping or quoting; a logged field containing a comma is split into
several cells, and `<` or `&` inside a field pass through into the HTML
unmodified. -/
theorem C10_raw_fields :
    (∀ (w : BufferedWriter) (cols : List String),
        bwOut (writeCells w cols) = bwOut w ++ String.join (cols.map tdCell)
        ∧ bwOut (writeHeadCells w cols) = bwOut w ++ String.join (cols.map thCell)
        ∧ (∀ col ∈ cols, tdCell col = "<td>" ++ col ++ "</td>"
            ∧ thCell col = "<th>" ++ col ++ "</th>"))
    ∧ bwOut (stream_rows_only BufferedWriter.fresh
          (CSV_Interface.init.write_row ["a,b", "<x>&"]).content)
        = "<tr><td>a</td><td>b</td><td><x>&</td></tr>\n"
    ∧ bwOut (stream_full_table BufferedWriter.fresh ("<H>&,B\nc,d\n"))
        = tableOpen ++ "<thead><tr><th><H>&</th><th>B</th></tr></thead><tbody>\n"
          ++ "<tr><td>c</td><td>d</td></tr>\n</tbody></table>" := by
  refine ⟨?_, by decide, by decide⟩
  intro w cols
  exact ⟨bwOut_writeCells cols w, bwOut_writeHeadCells cols w,
    fun col _ => ⟨rfl, rfl⟩⟩

/-! ### Snapshot atomicity -/

theorem prodProg_nil : prodProg [] = [] := rfl

theorem prodProg_cons (r : List String) (rs : List (List String)) :
    prodProg (r :: rs) = MOp.acq :: MOp.wr (rowLine r) :: MOp.rel :: prodProg rs := rfl

theorem strJoin_concat (l : List String) (x : String) :
    String.join (l ++ [x]) = String.join l ++ x := by
  induction l with
  | nil => simp [strJoin_cons, strJoin_nil, String.empty_append, String.append_empty]
  | cons a t ih =>
    simp only [List.cons_append, strJoin_cons, ih, String.append_assoc]

theorem take_succ_of_drop {α : Type} {l : List α} {k : Nat} {r : α} {rs : List α}
    (h : l.drop k = r :: rs) : l.take (k + 1) = l.take k ++ [r] := by
  induction k generalizing l with
  | zero =>
    rw [List.drop_zero] at h
    subst h
    rfl
  | succ k ih =>
    cases l with
    | nil => simp at h
    | cons a l' =>
      rw [List.drop_succ_cons] at h
      simp only [List.take_succ_cons, ih h, List.cons_append]

theorem drop_succ_of_drop {α : Type} {l : List α} {k : Nat} {r : α} {rs : List α}
    (h : l.drop k = r :: rs) : l.drop (k + 1) = rs := by
  rw [← List.tail_drop, h]
  rfl

theorem lt_length_of_drop {α : Type} {l : List α} {k : Nat} {r : α} {rs : List α}
    (h : l.drop k = r :: rs) : k < l.length := by
  by_contra hk
  rw [List.drop_eq_nil_of_le (by omega)] at h
  cases h

theorem fileAfter_succ (rows : List (List String)) (k : Nat) (r : List String)
    (rs : List (List String)) (h : rows.drop k = r :: rs) :
    fileAfter rows (k + 1) = fileAfter rows k ++ rowLine r := by
  unfold fileAfter
  rw [take_succ_of_drop h, List.map_append, List.map_singleton, strJoin_concat,
    String.append_assoc]

/-- Where the producer can be: between appends (its remaining program is
`prodProg` of the remaining rows and it does not hold the lock), or inside
the critical section of the `k`-th append, before or after the write. -/
def ProdAt (rows : List (List String)) (content : String) (owner : Option Tid)
    (prodOps : List MOp) : Prop :=
  ∃ k, k ≤ rows.length ∧
    ((prodOps = prodProg (rows.drop k) ∧ content = fileAfter rows k
        ∧ owner ≠ some Tid.prod)
     ∨ (∃ r rs, rows.drop k = r :: rs ∧ owner = some Tid.prod ∧
          ((prodOps = MOp.wr (rowLine r) :: MOp.rel :: prodProg rs
              ∧ content = fileAfter rows k)
           ∨ (prodOps = MOp.rel :: prodProg rs ∧ content = fileAfter rows (k + 1)))))

/-- Where the reader can be: before, inside, or after its single
lock-protected `get_content`; once the read happened, the result is a
snapshot of the file after some whole number of appends. -/
def RdrAt (rows : List (List String)) (owner : Option Tid) (rdrOps : List MOp)
    (result : Option String) : Prop :=
  (rdrOps = readerProg ∧ result = none ∧ owner ≠ some Tid.rdr)
  ∨ (rdrOps = [MOp.rd, MOp.rel] ∧ result = none ∧ owner = some Tid.rdr)
  ∨ (rdrOps = [MOp.rel]
      ∧ (∃ k, k ≤ rows.length ∧ result = some (fileAfter rows k))
      ∧ owner = some Tid.rdr)
  ∨ (rdrOps = []
      ∧ (∃ k, k ≤ rows.length ∧ result = some (fileAfter rows k))
      ∧ owner ≠ some Tid.rdr)

/-- The global invariant of the interleaved system. -/
def LogInv (rows : List (List String)) (s : CState) : Prop :=
  ProdAt rows s.content s.owner s.prodOps ∧ RdrAt rows s.owner s.rdrOps s.result

theorem LogInv_init (rows : List (List String)) : LogInv rows (initState rows) := by
  constructor
  · refine ⟨0, by omega, Or.inl ⟨?_, ?_, ?_⟩⟩
    · show prodProg rows = prodProg (rows.drop 0)
      rw [List.drop_zero]
    · show CSV_Interface.init.content = fileAfter rows 0
      simp [fileAfter, strJoin_nil, String.append_empty]
    · show (none : Option Tid) ≠ some Tid.prod
      simp
  · exact Or.inl ⟨rfl, rfl, by show (none : Option Tid) ≠ some Tid.rdr; simp⟩

theorem LogInv_step (rows : List (List String)) (s s' : CState)
    (hs : LStep s s') (h : LogInv rows s) : LogInv rows s' := by
  obtain ⟨hp, hr⟩ := h
  cases hs with
  | prodAcq c rest rd res =>
    constructor
    · obtain ⟨k, hk, hA | ⟨r, rs, hd, hown, _⟩⟩ := hp
      · obtain ⟨hops, hcont, _⟩ := hA
        rcases hdp : rows.drop k with _ | ⟨r, rs⟩
        · rw [hdp, prodProg_nil] at hops
          cases hops
        · rw [hdp, prodProg_cons] at hops
          injection hops with h1 h2
          exact ⟨k, hk, Or.inr ⟨r, rs, hdp, rfl, Or.inl ⟨h2, hcont⟩⟩⟩
      · cases hown
    · rcases hr with ⟨h1, h2, _⟩ | ⟨h1, h2, hown⟩ | ⟨h1, h2, hown⟩ | ⟨h1, h2, _⟩
      · exact Or.inl ⟨h1, h2, by simp⟩
      · cases hown
      · cases hown
      · exact Or.inr (Or.inr (Or.inr ⟨h1, h2, by simp⟩))
  | prodWr c t rest rd res =>
    constructor
    · obtain ⟨k, hk, hA | ⟨r, rs, hd, hown, hB⟩⟩ := hp
      · exact absurd rfl hA.2.2
      · rcases hB with ⟨hops, hcont⟩ | ⟨hops, hcont⟩
        · injection hops with h1 h2
          injection h1 with h1
          have hc : c = fileAfter rows k := hcont
          refine ⟨k, hk, Or.inr ⟨r, rs, hd, rfl, Or.inr ⟨h2, ?_⟩⟩⟩
          show c ++ t = fileAfter rows (k + 1)
          rw [hc, h1, fileAfter_succ rows k r rs hd]
        · cases hops
    · exact hr
  | prodRel c rest rd res =>
    constructor
    · obtain ⟨k, hk, hA | ⟨r, rs, hd, hown, hB⟩⟩ := hp
      · exact absurd rfl hA.2.2
      · rcases hB with ⟨hops, hcont⟩ | ⟨hops, hcont⟩
        · cases hops
        · injection hops with h1 h2
          refine ⟨k + 1, by have := lt_length_of_drop hd; omega,
            Or.inl ⟨?_, hcont, by simp⟩⟩
          rw [drop_succ_of_drop hd, h2]
    · rcases hr with ⟨h1, h2, _⟩ | ⟨h1, h2, hown⟩ | ⟨h1, h2, hown⟩ | ⟨h1, h2, _⟩
      · exact Or.inl ⟨h1, h2, by simp⟩
      · cases hown
      · cases hown
      · exact Or.inr (Or.inr (Or.inr ⟨h1, h2, by simp⟩))
  | rdrAcq c pr rest res =>
    constructor
    · obtain ⟨k, hk, hA | ⟨r, rs, hd, hown, hB⟩⟩ := hp
      · exact ⟨k, hk, Or.inl ⟨hA.1, hA.2.1, by simp⟩⟩
      · cases hown
    · rcases hr with ⟨h1, h2, _⟩ | ⟨h1, h2, hown⟩ | ⟨h1, h2, hown⟩ | ⟨h1, h2, _⟩
      · simp only [readerProg] at h1
        injection h1 with _ h1t
        exact Or.inr (Or.inl ⟨h1t, h2, rfl⟩)
      · cases h1
      · cases h1
      · cases h1
  | rdrRd c pr rest res =>
    constructor
    · exact hp
    · rcases hr with ⟨h1, h2, hown⟩ | ⟨h1, h2, hown⟩ | ⟨h1, h2, hown⟩ | ⟨h1, h2, _⟩
      · simp only [readerProg] at h1
        cases h1
      · injection h1 with _ h1t
        obtain ⟨k, hk, hA | ⟨r, rs, hd, hpo, hB⟩⟩ := hp
        · have hc : c = fileAfter rows k := hA.2.1
          refine Or.inr (Or.inr (Or.inl ⟨h1t, ⟨k, hk, ?_⟩, rfl⟩))
          show some c = some (fileAfter rows k)
          rw [hc]
        · cases hpo
      · cases h1
      · cases h1
  | rdrRel c pr rest res =>
    constructor
    · obtain ⟨k, hk, hA | ⟨r, rs, hd, hown, hB⟩⟩ := hp
      · exact ⟨k, hk, Or.inl ⟨hA.1, hA.2.1, by simp⟩⟩
      · cases hown
    · rcases hr with ⟨h1, h2, hown⟩ | ⟨h1, h2, hown⟩ | ⟨h1, h2, hown⟩ | ⟨h1, h2, _⟩
      · simp only [readerProg] at h1
        cases h1
      · cases h1
      · injection h1 with _ h1t
        exact Or.inr (Or.inr (Or.inr ⟨h1t, h2, by simp⟩))
      · cases h1

theorem LogInv_reach (rows : List (List String)) (s : CState)
    (h : LReach (initState rows) s) : LogInv rows s := by
  induction h with
  | refl => exact LogInv_init rows
  | tail _ hstep ih => exact LogInv_step rows _ _ hstep ih

/-- Once the producer has finished all its appends, the content is pinned
at `fileAfter rows rows.length` and any snapshot taken from then on reads
exactly it. -/
def QuietInv (rows : List (List String)) (s : CState) : Prop :=
  s.prodOps = [] ∧ s.content = fileAfter rows rows.length
  ∧ (s.result = none ∨ s.result = some (fileAfter rows rows.length))

theorem QuietInv_step (rows : List (List String)) (s s' : CState)
    (hs : LStep s s') (h : QuietInv rows s) : QuietInv rows s' := by
  obtain ⟨h1, h2, h3⟩ := h
  cases hs with
  | prodAcq c rest rd res => cases h1
  | prodWr c t rest rd res => cases h1
  | prodRel c rest rd res => cases h1
  | rdrAcq c pr rest res => exact ⟨h1, h2, h3⟩
  | rdrRd c pr rest res =>
    refine ⟨h1, h2, Or.inr ?_⟩
    have hc : c = fileAfter rows rows.length := h2
    show some c = some (fileAfter rows rows.length)
    rw [hc]
  | rdrRel c pr rest res => exact ⟨h1, h2, h3⟩

theorem QuietInv_reach (rows : List (List String)) (s s' : CState)
    (h0 : QuietInv rows s) (h : LReach s s') : QuietInv rows s' := by
  induction h with
  | refl => exact h0
  | tail _ hstep ih => exact QuietInv_step rows _ _ hstep ih

theorem prodProg_eq_nil (rows : List (List String)) (h : prodProg rows = []) :
    rows = [] := by
  cases rows with
  | nil => rfl
  | cons r rs => rw [prodProg_cons] at h; cases h

/-- C2: under the log lock, in every interleaving of the producer's
appends with a snapshot, (a) any value `get_content` returns is the file
after some whole number of appends — never a partially written or
interleaved record; (b) a snapshot whose critical section starts only
after the `N`-th append has completed returns exactly the header line
followed by the `N` appended records; and (c) that content is literally
the header line followed by the `N` comma-joined, newline-terminated
record lines. -/
theorem C2_snapshot_atomicity (rows : List (List String)) :
    (∀ s, LReach (initState rows) s → ∀ r, s.result = some r →
        ∃ k, k ≤ rows.length ∧ r = fileAfter rows k)
    ∧ (∀ s, LReach (initState rows) s → s.prodOps = [] → s.rdrOps = readerProg →
        ∀ s', LReach s s' → ∀ r, s'.result = some r →
          r = fileAfter rows rows.length)
    ∧ fileAfter rows rows.length
        = CSV_Interface.init.content ++ String.join (rows.map rowLine) := by
  refine ⟨?_, ?_, ?_⟩
  · intro s hreach r hres
    obtain ⟨hp, hr⟩ := LogInv_reach rows s hreach
    rcases hr with ⟨h1, h2, _⟩ | ⟨h1, h2, _⟩ | ⟨h1, ⟨k, hk, h2⟩, _⟩ | ⟨h1, ⟨k, hk, h2⟩, _⟩
    · rw [h2] at hres; cases hres
    · rw [h2] at hres; cases hres
    · rw [h2] at hres
      injection hres with hres
      exact ⟨k, hk, hres.symm⟩
    · rw [h2] at hres
      injection hres with hres
      exact ⟨k, hk, hres.symm⟩
  · intro s hreach hdone hrops s' hreach' r hres
    obtain ⟨hp, hr⟩ := LogInv_reach rows s hreach
    have hcontent : s.content = fileAfter rows rows.length := by
      obtain ⟨k, hk, hA | ⟨rr, rs, hd, hown, hB⟩⟩ := hp
      · have hdropnil : rows.drop k = [] := by
          apply prodProg_eq_nil
          rw [← hA.1, hdone]
        have hklen : rows.length ≤ k := List.drop_eq_nil_iff.mp hdropnil
        have : k = rows.length := by omega
        rw [hA.2.1, this]
      · exfalso
        rcases hB with ⟨hops, _⟩ | ⟨hops, _⟩ <;> rw [hdone] at hops <;> cases hops
    have hresnone : s.result = none := by
      rcases hr with ⟨h1, h2, _⟩ | ⟨h1, h2, _⟩ | ⟨h1, _, _⟩ | ⟨h1, _, _⟩
      · exact h2
      · exact h2
      · rw [hrops] at h1
        simp [readerProg] at h1
      · rw [hrops] at h1
        simp [readerProg] at h1
    have hq : QuietInv rows s := ⟨hdone, hcontent, Or.inl hresnone⟩
    have hq' := QuietInv_reach rows s s' hq hreach'
    rcases hq'.2.2 with h | h
    · rw [h] at hres; cases hres
    · rw [h] at hres
      injection hres with hres
      exact hres.symm
  · unfold fileAfter
    rw [List.take_length]

/-- Witness for C2: the producer appends one row, then the reader takes
its snapshot; the returned content is the header plus that one row. -/
theorem C2_witness :
    (∃ k, k ≤ ([["00:01:23", "2.70g"]] : List (List String)).length
        ∧ CSV_Interface.init.content ++ rowLine ["00:01:23", "2.70g"]
            = fileAfter [["00:01:23", "2.70g"]] k)
    ∧ CSV_Interface.init.content ++ rowLine ["00:01:23", "2.70g"]
        = fileAfter [["00:01:23", "2.70g"]] 1
    ∧ fileAfter [["00:01:23", "2.70g"]] 1
        = "Time since boot (mm:ss:msms),G-Force\n00:01:23,2.70g\n" := by
  have st1 : LStep (initState [["00:01:23", "2.70g"]])
      ⟨CSV_Interface.init.content, some Tid.prod,
        [MOp.wr (rowLine ["00:01:23", "2.70g"]), MOp.rel], readerProg, none⟩ :=
    LStep.prodAcq CSV_Interface.init.content
      [MOp.wr (rowLine ["00:01:23", "2.70g"]), MOp.rel] readerProg none
  have st2 := LStep.prodWr CSV_Interface.init.content (rowLine ["00:01:23", "2.70g"])
      [MOp.rel] readerProg none
  have st3 := LStep.prodRel
      (CSV_Interface.init.content ++ rowLine ["00:01:23", "2.70g"]) [] readerProg none
  have st4 : LStep
      ⟨CSV_Interface.init.content ++ rowLine ["00:01:23", "2.70g"], none, [],
        readerProg, none⟩
      ⟨CSV_Interface.init.content ++ rowLine ["00:01:23", "2.70g"], some Tid.rdr, [],
        [MOp.rd, MOp.rel], none⟩ :=
    LStep.rdrAcq (CSV_Interface.init.content ++ rowLine ["00:01:23", "2.70g"]) []
      [MOp.rd, MOp.rel] none
  have st5 := LStep.rdrRd
      (CSV_Interface.init.content ++ rowLine ["00:01:23", "2.70g"]) [] [MOp.rel] none
  have st6 := LStep.rdrRel
      (CSV_Interface.init.content ++ rowLine ["00:01:23", "2.70g"]) [] []
      (some (CSV_Interface.init.content ++ rowLine ["00:01:23", "2.70g"]))
  have reach03 : LReach (initState [["00:01:23", "2.70g"]])
      ⟨CSV_Interface.init.content ++ rowLine ["00:01:23", "2.70g"], none, [],
        readerProg, none⟩ :=
    Relation.ReflTransGen.head st1 (Relation.ReflTransGen.head st2
      (Relation.ReflTransGen.head st3 Relation.ReflTransGen.refl))
  have reach36 : LReach
      ⟨CSV_Interface.init.content ++ rowLine ["00:01:23", "2.70g"], none, [],
        readerProg, none⟩
      ⟨CSV_Interface.init.content ++ rowLine ["00:01:23", "2.70g"], none, [], [],
        some (CSV_Interface.init.content ++ rowLine ["00:01:23", "2.70g"])⟩ :=
    Relation.ReflTransGen.head st4 (Relation.ReflTransGen.head st5
      (Relation.ReflTransGen.head st6 Relation.ReflTransGen.refl))
  have reach06 := Relation.ReflTransGen.trans reach03 reach36
  refine ⟨(C2_snapshot_atomicity _).1 _ reach06 _ rfl, ?_, by decide⟩
  exact (C2_snapshot_atomicity _).2.1 _ reach03 rfl rfl _ reach36 _ rfl
